import Mathlib

/-!
Verification of the gk20a instance-memory subsystem
(drm/nouveau/nvkm/subdev/instmem/gk20a.c).

The development shallowly embeds the subsystem's code: machine integers
are `Nat` with explicit `% 2^32` / `% 2^64` where the C code truncates,
the register bus is a store from register offsets to 32-bit values with
an access log, and the external collaborators (page allocator,
`nvkm_mm_head`, `iommu_map`) are oracles whose outcomes parameterize the
constructor models.
-/

/-- 2^32, the modulus of `u32` arithmetic. -/
def U32 : Nat := 2 ^ 32

/-- 2^64, the modulus of `u64` arithmetic. -/
def U64 : Nat := 2 ^ 64

/-- `PAGE_SHIFT` on this platform (gk20a/Tegra): 4 KiB pages.  The source
itself hard-codes 12 interchangeably with `PAGE_SHIFT`
(e.g. `node->mem->size = size >> 12`, `node->r.offset = node->handle >> 12`). -/
def PAGE_SHIFT : Nat := 12

/-- `PAGE_SIZE = 1 << PAGE_SHIFT`. -/
def PAGE_SIZE : Nat := 4096

/-!
## Windowed coherent access (PRAMIN)

`gk20a_instobj_rd32` / `gk20a_instobj_wr32` access instance memory through
the 1 MiB PRAMIN aperture at `0x700000`, repointing the window via register
`0x001700` when the cached window base (`imem->addr`) does not match.
The state carries the cached base, the register store, and logs of the
register writes and reads issued, so theorems can count repoints.
-/

/-- The mutable state touched by the read/write path: `imem->addr` (the
cached window base) plus the raw indirect register interface, with logs
of every `nvkm_wr32` / `nvkm_rd32` issued. -/
structure AccessState where
  addr : Nat
  regs : Nat → Nat
  writes : List (Nat × Nat)
  reads : List Nat

/-- `nvkm_wr32(device, reg, val)`: store a 32-bit value and log the write. -/
def nvkm_wr32 (s : AccessState) (reg val : Nat) : AccessState :=
  { s with
    regs := fun r2 => if r2 = reg then val % U32 else s.regs r2
    writes := s.writes ++ [(reg, val % U32)] }

/-- `nvkm_rd32(device, reg)`: read a 32-bit value and log the read. -/
def nvkm_rd32 (s : AccessState) (reg : Nat) : Nat × AccessState :=
  (s.regs reg, { s with reads := s.reads ++ [reg] })

/-- `gk20a_instobj_rd32(object, offset)`:
`base = (node->mem->offset + offset) & 0xffffff00000ULL`,
`addr = (node->mem->offset + offset) & 0x000000fffffULL`; repoint the
window (write `base >> 16` to `0x001700`, update `imem->addr`) when the
cached base differs, then read `0x700000 + addr`. -/
def gk20a_instobj_rd32 (memOffset : Nat) (s : AccessState) (offset : Nat) :
    Nat × AccessState :=
  let base := ((memOffset + offset) % U64) &&& 0xffffff00000
  let addr := ((memOffset + offset) % U64) &&& 0x000000fffff
  let s1 := if s.addr ≠ base then
      let s2 := nvkm_wr32 s 0x001700 (base >>> 16)
      { s2 with addr := base }
    else s
  nvkm_rd32 s1 (0x700000 + addr)

/-- `gk20a_instobj_wr32(object, offset, data)`: same window computation
as `gk20a_instobj_rd32`, then write `data` to `0x700000 + addr`. -/
def gk20a_instobj_wr32 (memOffset : Nat) (s : AccessState) (offset data : Nat) :
    AccessState :=
  let base := ((memOffset + offset) % U64) &&& 0xffffff00000
  let addr := ((memOffset + offset) % U64) &&& 0x000000fffff
  let s1 := if s.addr ≠ base then
      let s2 := nvkm_wr32 s 0x001700 (base >>> 16)
      { s2 with addr := base }
    else s
  nvkm_wr32 s1 (0x700000 + addr) data

/-- `gk20a_instmem_fini`: `imem->addr = ~0ULL` (the sentinel). -/
def gk20a_instmem_fini (s : AccessState) : AccessState :=
  { s with addr := U64 - 1 }

/-- The window base the code computes for a total GPU offset. -/
def windowBase (memOffset offset : Nat) : Nat :=
  ((memOffset + offset) % U64) &&& 0xffffff00000

/-- The in-window offset the code computes for a total GPU offset. -/
def windowOffset (memOffset offset : Nat) : Nat :=
  ((memOffset + offset) % U64) &&& 0x000000fffff

/-- Modelled from the spec: `window_base = gpu_offset & ~(window_size-1)`
with `window_size = 0x100000`, taking `~` in u64 as the spec's offsets are
u64: the mask is `0xfffffffffff00000`. -/
def windowBaseSpec (gpuOffset : Nat) : Nat :=
  gpuOffset &&& 0xfffffffffff00000

/-- Number of repoint register writes (writes to `0x001700`) in the log. -/
def repointCount (s : AccessState) : Nat :=
  (s.writes.filter (fun w => w.1 = 0x001700)).length

/-!
## Access traces
-/

/-- One coherent access: a 32-bit read or write at a byte offset. -/
inductive MemOp
  | rd (offset : Nat)
  | wr (offset : Nat) (data : Nat)

/-- The byte offset of an access. -/
def MemOp.off : MemOp → Nat
  | MemOp.rd o => o
  | MemOp.wr o _ => o

/-- Run a trace of accesses on one object (fixed `node->mem->offset`). -/
def runOps (memOffset : Nat) (s : AccessState) : List MemOp → AccessState
  | [] => s
  | MemOp.rd o :: rest => runOps memOffset (gk20a_instobj_rd32 memOffset s o).2 rest
  | MemOp.wr o d :: rest => runOps memOffset (gk20a_instobj_wr32 memOffset s o d) rest

/-- Number of adjacent pairs in a list whose entries differ. -/
def adjChanges : List Nat → Nat
  | [] => 0
  | [_] => 0
  | a :: b :: rest => (if a = b then 0 else 1) + adjChanges (b :: rest)

/-- Modelled from the spec: the page base of a GPU offset, at the 4 KiB
page granularity the spec and claim C5 speak of ("crossing of a page
boundary"). -/
def pageBaseSpec (gpuOffset : Nat) : Nat :=
  gpuOffset / PAGE_SIZE * PAGE_SIZE

/-- Modelled from the spec: claim C5's repoint-count formula for a trace
starting from an invalidated cache — one repoint for a trace staying in
one page, plus one more per crossing of a (4 KiB) page boundary. -/
def specRepointCountPage (memOffset : Nat) (ops : List MemOp) : Nat :=
  match ops with
  | [] => 0
  | _ => 1 + adjChanges (ops.map (fun op => pageBaseSpec ((memOffset + op.off) % U64)))

/-- The repoint-count formula at the granularity the code actually uses:
the 1 MiB PRAMIN window (`windowBase`) rather than the 4 KiB page. -/
def specRepointCountWindow (memOffset : Nat) (ops : List MemOp) : Nat :=
  match ops with
  | [] => 0
  | _ => 1 + adjChanges (ops.map (fun op => windowBase memOffset op.off))

/-- Repoints issued by a run as a function of the cached window value:
one per access whose window base differs from the previous one. -/
def cacheRepoints (c : Nat) : List Nat → Nat
  | [] => 0
  | b :: rest => (if c = b then 0 else 1) + cacheRepoints b rest

/-!
## Instance-memory subsystem state and backend dispatch
-/

/-- Which backend an object uses (`gk20a_instobj_dma` / `gk20a_instobj_iommu`). -/
inductive BackendKind
  | contiguousHost
  | iommuMapped
deriving DecidableEq

/-- The static configuration of `struct gk20a_instmem` relevant to
dispatch: whether `imem->domain` is non-NULL, and `imem->iommu_pgshift`.
Both are set once by `gk20a_instmem_ctor` and never written again. -/
structure Instmem where
  domain : Bool
  iommu_pgshift : Nat

/-- `gk20a_instmem_ctor`: copy the device's IOMMU configuration into the
subsystem (`imem->domain`, `imem->iommu_pgshift`) if a domain was probed;
otherwise leave them at their zero-initialized values and configure the
DMA attributes instead. -/
def gk20a_instmem_ctor (deviceDomain : Bool) (devicePgshift : Nat) : Instmem :=
  if deviceDomain then
    { domain := true, iommu_pgshift := devicePgshift }
  else
    { domain := false, iommu_pgshift := 0 }

/-- The backend `gk20a_instobj_ctor` dispatches to:
`if (imem->domain) gk20a_instobj_ctor_iommu(...) else gk20a_instobj_ctor_dma(...)`. -/
def gk20a_instobj_ctor_backend (imem : Instmem) : BackendKind :=
  if imem.domain then BackendKind.iommuMapped else BackendKind.contiguousHost

/-- The backend `gk20a_instobj_dtor` dispatches to:
`if (imem->domain) gk20a_instobj_dtor_iommu(node) else gk20a_instobj_dtor_dma(node)`. -/
def gk20a_instobj_dtor_backend (imem : Instmem) : BackendKind :=
  if imem.domain then BackendKind.iommuMapped else BackendKind.contiguousHost

/-!
## IOMMU backend constructor (`gk20a_instobj_ctor_iommu`)

The external collaborators are oracles: `ok i` tells whether the `i`-th
`alloc_page` succeeds (the page itself is identified by its index `i`);
`mmRet`/`mmOffset` are the return value and reserved offset of
`nvkm_mm_head`; `mapRet i` is the return value of the `i`-th `iommu_map`.
The result carries a ledger of every resource acquired and released so the
unwind paths can be audited.
-/

/-- Which sub-step of `gk20a_instobj_ctor_iommu` failed (the three `goto`
sources: page allocation, `nvkm_mm_head` reservation, `iommu_map`). -/
inductive FailStep
  | pageAlloc
  | reserve
  | map
deriving DecidableEq

/-- Outcome ledger of one `gk20a_instobj_ctor_iommu` run. -/
structure IommuResult where
  ret : Int
  memOffset : Nat
  allocated : List Nat
  freed : List Nat
  mapped : List Nat
  unmapCalls : List Nat
  reserved : Option (Nat × Nat)
  regions : List Nat
  failedStep : Option FailStep

/-- The page-allocation loop: `for (i = 0; i < npages; i++)` calling
`alloc_page`, stopping at the first failure.  Returns the indices
allocated (in order) and whether the loop completed. -/
def allocPagesGo (ok : Nat → Bool) : Nat → Nat → List Nat × Bool
  | _, 0 => ([], true)
  | i, rem + 1 =>
    if ok i then
      let rest := allocPagesGo ok (i + 1) rem
      (i :: rest.1, rest.2)
    else ([], false)

/-- The mapping loop: `for (i = 0; i < npages; i++)` computing
`offset = (r->offset + i) << imem->iommu_pgshift` (as `u32`) and calling
`iommu_map`.  Returns the offsets mapped so far, and on failure the
failing index together with the `offset` local at that point. -/
def mapPagesGo (mapRet : Nat → Int) (r pgshift : Nat) :
    Nat → Nat → List Nat × Option (Nat × Nat)
  | _, 0 => ([], none)
  | i, rem + 1 =>
    let offset := ((r + i) <<< pgshift) % U32
    if mapRet i < 0 then ([], some (i, offset))
    else
      let rest := mapPagesGo mapRet r pgshift (i + 1) rem
      (offset :: rest.1, rest.2)

/-- The unwind loop on mapping failure:
`while (i-- > 0) { offset -= PAGE_SIZE; iommu_unmap(domain, offset, PAGE_SIZE); }`
(`offset` in `u32` arithmetic).  Returns the still-mapped offsets and the
accumulated unmap calls. -/
def unwindGo : Nat → Nat → List Nat → List Nat → List Nat × List Nat
  | 0, _, mapped, calls => (mapped, calls)
  | i + 1, offset, mapped, calls =>
    let offset2 := (offset + (U32 - PAGE_SIZE)) % U32
    unwindGo i offset2 (mapped.erase offset2) (calls ++ [offset2])

/-- `gk20a_instobj_ctor_iommu(parent, engine, oclass, npages, align, &node)`:
allocate `npages` pages one at a time (unwinding on failure), reserve a
virtually-contiguous range via `nvkm_mm_head`, map each page through the
IOMMU (unwinding and releasing the range on failure), then set bit
`34 - iommu_pgshift` in the `u32` node offset and publish
`_mem.offset = ((u64)r->offset) << iommu_pgshift`. -/
def gk20a_instobj_ctor_iommu (pgshift npages align : Nat) (ok : Nat → Bool)
    (mmRet : Int) (mmOffset : Nat) (mapRet : Nat → Int) : IommuResult :=
  let ap := allocPagesGo ok 0 npages
  if ap.2 = false then
    { ret := -12, memOffset := 0, allocated := ap.1, freed := ap.1,
      mapped := [], unmapCalls := [], reserved := none, regions := [],
      failedStep := some FailStep.pageAlloc }
  else if mmRet ≠ 0 then
    { ret := mmRet, memOffset := 0, allocated := ap.1, freed := ap.1,
      mapped := [], unmapCalls := [], reserved := none, regions := [],
      failedStep := some FailStep.reserve }
  else
    let r := mmOffset % U32
    let mp := mapPagesGo mapRet r pgshift 0 npages
    match mp.2 with
    | some fail =>
      let uw := unwindGo fail.1 fail.2 mp.1 []
      { ret := mapRet fail.1, memOffset := 0, allocated := ap.1, freed := ap.1,
        mapped := uw.1, unmapCalls := uw.2, reserved := none, regions := [],
        failedStep := some FailStep.map }
    | none =>
      let r2 := (r ||| (2 ^ (34 - pgshift))) % U32
      { ret := 0, memOffset := (r2 <<< pgshift) % U64, allocated := ap.1,
        freed := [], mapped := mp.1, unmapCalls := [],
        reserved := some (r, npages), regions := [r2],
        failedStep := none }
/-!
## IOMMU backend destructor (`gk20a_instobj_dtor_iommu`) and DMA backend
-/

/-- Outcome ledger of one `gk20a_instobj_dtor_iommu` run. -/
structure IommuDtorResult where
  unmapCalls : List Nat
  freedPages : Nat
  released : Bool

/-- `gk20a_instobj_dtor_iommu(node)`: return immediately if
`_node->mem->regions` is empty; otherwise take the first region, clear bit
`34 - iommu_pgshift` of its `u32` offset, unmap and free each of
`_node->mem->size` pages at `(r->offset + i) << iommu_pgshift`, then
release the range with `nvkm_mm_free`. -/
def gk20a_instobj_dtor_iommu (pgshift memSize : Nat) (regions : List Nat) :
    IommuDtorResult :=
  match regions with
  | [] => { unmapCalls := [], freedPages := 0, released := false }
  | rOff :: _ =>
    let r2 := (rOff &&& (U64 - 1 - 2 ^ (34 - pgshift))) % U32
    { unmapCalls := (List.range memSize).map (fun i => ((r2 + i) <<< pgshift) % U32),
      freedPages := memSize,
      released := true }

/-- Outcome of one `gk20a_instobj_ctor_dma` run (the backend-acquisition
part, lines 220-244: the `dma_alloc_attrs` call onward). -/
structure DmaResult where
  ret : Int
  cpuaddr : Option Nat
  memOffset : Nat
  warned : Bool
  rOffset : Nat
  rLength : Nat

/-- `gk20a_instobj_ctor_dma(parent, engine, oclass, npages, align, &node)`:
call `dma_alloc_attrs` (the oracle gives the bus address `handle`, or
`none` for NULL); on NULL return `-ENOMEM`; otherwise warn — only — when
`handle & (align - 1)` is nonzero (u32 `align`), present the memory as
small pages (`r.offset = handle >> 12`, `r.length = (npages << PAGE_SHIFT) >> 12`)
and publish `_mem.offset = handle`. -/
def gk20a_instobj_ctor_dma (npages align : Nat) (dmaAlloc : Option Nat) :
    DmaResult :=
  match dmaAlloc with
  | none =>
    { ret := -12, cpuaddr := none, memOffset := 0, warned := false,
      rOffset := 0, rLength := 0 }
  | some handle =>
    { ret := 0, cpuaddr := some handle, memOffset := handle % U64,
      warned := decide ((handle % U64) &&& ((align + (U32 - 1)) % U32) ≠ 0),
      rOffset := ((handle % U64) >>> 12) % U32,
      rLength := ((npages <<< PAGE_SHIFT) % U32) >>> 12 }

/-- Outcome of one `gk20a_instobj_dtor_dma` run. -/
structure DmaDtorResult where
  freeCalled : Bool
  freedBytes : Nat

/-- `gk20a_instobj_dtor_dma(node)`: return immediately if `node->cpuaddr`
is NULL; otherwise `dma_free_attrs(dev, _node->mem->size << PAGE_SHIFT, ...)`. -/
def gk20a_instobj_dtor_dma (cpuaddr : Option Nat) (memSize : Nat) :
    DmaDtorResult :=
  match cpuaddr with
  | none => { freeCalled := false, freedBytes := 0 }
  | some _ => { freeCalled := true, freedBytes := (memSize <<< PAGE_SHIFT) % U64 }
/-!
## Unwind correctness lemmas
-/

/-- The offsets the mapping loop passes to `iommu_map` for indices
`i, i+1, ..., i+k-1`. -/
def mapSegment (r pg : Nat) : Nat → Nat → List Nat
  | _, 0 => []
  | i, k + 1 => (((r + i) <<< pg) % U32) :: mapSegment r pg (i + 1) k

/-- The offsets the unwind loop passes to `iommu_unmap`, starting from the
`offset` local at the failing index and stepping down by `PAGE_SIZE`. -/
def unwindVals : Nat → Nat → List Nat
  | 0, _ => []
  | k + 1, off =>
    let off2 := (off + (U32 - PAGE_SIZE)) % U32
    off2 :: unwindVals k off2

/-!
## Single-access lemmas
-/

lemma gk20a_rd32_state (m : Nat) (s : AccessState) (o : Nat) :
    (gk20a_instobj_rd32 m s o).2.addr = windowBase m o ∧
    (gk20a_instobj_rd32 m s o).2.writes = s.writes ++
      (if s.addr = windowBase m o then []
       else [(0x001700, (windowBase m o >>> 16) % U32)]) ∧
    (gk20a_instobj_rd32 m s o).2.reads = s.reads ++ [0x700000 + windowOffset m o] := by
  by_cases h : s.addr = windowBase m o <;>
    simp [gk20a_instobj_rd32, nvkm_wr32, nvkm_rd32, windowBase, windowOffset, h] at h ⊢ <;>
    simp [h]

lemma gk20a_wr32_state (m : Nat) (s : AccessState) (o d : Nat) :
    (gk20a_instobj_wr32 m s o d).addr = windowBase m o ∧
    (gk20a_instobj_wr32 m s o d).writes = s.writes ++
      (if s.addr = windowBase m o then []
       else [(0x001700, (windowBase m o >>> 16) % U32)]) ++
      [(0x700000 + windowOffset m o, d % U32)] ∧
    (gk20a_instobj_wr32 m s o d).reads = s.reads := by
  by_cases h : s.addr = windowBase m o <;>
    simp [gk20a_instobj_wr32, nvkm_wr32, nvkm_rd32, windowBase, windowOffset, h] at h ⊢ <;>
    simp [h]

lemma gk20a_wr32_regs (m : Nat) (s : AccessState) (o d : Nat) :
    (gk20a_instobj_wr32 m s o d).regs (0x700000 + windowOffset m o) = d % U32 := by
  by_cases h : s.addr = windowBase m o <;>
    simp [gk20a_instobj_wr32, nvkm_wr32, windowBase, windowOffset, h] at h ⊢ <;>
    simp [h]

lemma gk20a_rd32_val_hit (m : Nat) (s : AccessState) (o : Nat)
    (h : s.addr = windowBase m o) :
    (gk20a_instobj_rd32 m s o).1 = s.regs (0x700000 + windowOffset m o) := by
  simp [gk20a_instobj_rd32, nvkm_rd32, windowBase, windowOffset] at h ⊢
  simp [h]
/-!
## Trace-level lemmas
-/

lemma repointCount_append (s : AccessState) (l : List (Nat × Nat)) :
    ((s.writes ++ l).filter (fun w => w.1 = 0x001700)).length =
      repointCount s + (l.filter (fun w => w.1 = 0x001700)).length := by
  simp [repointCount, List.filter_append]

lemma repointCount_rd32 (m : Nat) (s : AccessState) (o : Nat) :
    repointCount (gk20a_instobj_rd32 m s o).2 =
      repointCount s + (if s.addr = windowBase m o then 0 else 1) := by
  have h := (gk20a_rd32_state m s o).2.1
  by_cases hc : s.addr = windowBase m o <;>
    simp [repointCount, h, hc, List.filter_append]

lemma repointCount_wr32 (m : Nat) (s : AccessState) (o d : Nat) :
    repointCount (gk20a_instobj_wr32 m s o d) =
      repointCount s + (if s.addr = windowBase m o then 0 else 1) := by
  have h := (gk20a_wr32_state m s o d).2.1
  by_cases hc : s.addr = windowBase m o <;>
    simp [repointCount, h, hc, List.filter_append] <;> omega

lemma runOps_repoints (m : Nat) : ∀ (ops : List MemOp) (s : AccessState),
    repointCount (runOps m s ops) =
      repointCount s + cacheRepoints s.addr (ops.map (fun op => windowBase m op.off))
  | [], s => by simp [runOps, cacheRepoints]
  | MemOp.rd o :: rest, s => by
    have ih := runOps_repoints m rest (gk20a_instobj_rd32 m s o).2
    have ha := (gk20a_rd32_state m s o).1
    simp only [runOps, ih, ha, repointCount_rd32, MemOp.off, List.map, cacheRepoints]
    by_cases hc : s.addr = windowBase m o <;> simp [hc] <;> omega
  | MemOp.wr o d :: rest, s => by
    have ih := runOps_repoints m rest (gk20a_instobj_wr32 m s o d)
    have ha := (gk20a_wr32_state m s o d).1
    simp only [runOps, ih, ha, repointCount_wr32, MemOp.off, List.map, cacheRepoints]
    by_cases hc : s.addr = windowBase m o <;> simp [hc] <;> omega

lemma cacheRepoints_eq_adjChanges : ∀ (t : List Nat) (b : Nat),
    cacheRepoints b t = adjChanges (b :: t)
  | [], b => by simp [cacheRepoints, adjChanges]
  | c :: rest, b => by
    simp only [cacheRepoints, adjChanges, cacheRepoints_eq_adjChanges rest c]

lemma windowBase_lt_sentinel (m o : Nat) : windowBase m o < U64 - 1 := by
  have h : windowBase m o ≤ 0xffffff00000 := Nat.and_le_right
  have h2 : (0xffffff00000 : Nat) < U64 - 1 := by decide
  omega
lemma mapSegment_snoc (r pg : Nat) : ∀ (k i : Nat),
    mapSegment r pg i (k + 1) = mapSegment r pg i k ++ [((r + (i + k)) <<< pg) % U32] := by
  intro k
  induction k with
  | zero => intro i; simp [mapSegment]
  | succ k ih =>
    intro i
    have ih2 := ih (i + 1)
    have h2 : i + 1 + k = i + (k + 1) := by omega
    rw [h2] at ih2
    have h1 : mapSegment r pg i (k + 1 + 1)
        = (((r + i) <<< pg) % U32) :: mapSegment r pg (i + 1) (k + 1) := rfl
    have h3 : mapSegment r pg i (k + 1)
        = (((r + i) <<< pg) % U32) :: mapSegment r pg (i + 1) k := rfl
    rw [h1, ih2, h3, List.cons_append]

lemma unwindGo_foldl : ∀ (k : Nat), ∀ (off : Nat) (mapped calls : List Nat),
    unwindGo k off mapped calls =
      ((unwindVals k off).foldl List.erase mapped, calls ++ unwindVals k off) := by
  intro k
  induction k with
  | zero => intro off mapped calls; simp [unwindGo, unwindVals]
  | succ k ih =>
    intro off mapped calls
    have h1 : unwindGo (k + 1) off mapped calls
        = unwindGo k ((off + (U32 - PAGE_SIZE)) % U32)
            (mapped.erase ((off + (U32 - PAGE_SIZE)) % U32))
            (calls ++ [(off + (U32 - PAGE_SIZE)) % U32]) := rfl
    have h2 : unwindVals (k + 1) off
        = ((off + (U32 - PAGE_SIZE)) % U32)
            :: unwindVals k ((off + (U32 - PAGE_SIZE)) % U32) := rfl
    rw [h1, ih, h2, List.foldl_cons, List.append_assoc, List.singleton_append]
lemma u32_sub_page_step (a : Nat) :
    (((a + PAGE_SIZE) % U32) + (U32 - PAGE_SIZE)) % U32 = a % U32 := by
  have h32 : U32 = 4294967296 := by norm_num [U32]
  have hp : PAGE_SIZE = 4096 := rfl
  rw [h32, hp]
  omega

lemma unwindVals_eq_reverse (r : Nat) : ∀ (k : Nat),
    unwindVals k (((r + k) <<< 12) % U32) = (mapSegment r 12 0 k).reverse := by
  intro k
  induction k with
  | zero => simp [unwindVals, mapSegment]
  | succ k ih =>
    have hshift : (r + (k + 1)) <<< 12 = ((r + k) <<< 12) + PAGE_SIZE := by
      simp only [Nat.shiftLeft_eq]
      have hp : PAGE_SIZE = 4096 := rfl
      have h12 : (2 : Nat) ^ 12 = 4096 := by norm_num
      rw [hp, h12]
      ring
    have hoff : ((((r + (k + 1)) <<< 12) % U32) + (U32 - PAGE_SIZE)) % U32
        = ((r + k) <<< 12) % U32 := by
      rw [hshift, u32_sub_page_step]
    have h1 : unwindVals (k + 1) (((r + (k + 1)) <<< 12) % U32)
        = (((((r + (k + 1)) <<< 12) % U32) + (U32 - PAGE_SIZE)) % U32)
            :: unwindVals k (((((r + (k + 1)) <<< 12) % U32) + (U32 - PAGE_SIZE)) % U32) := rfl
    rw [h1, hoff, ih, mapSegment_snoc]
    simp [List.reverse_append]

lemma foldl_erase_of_perm : ∀ (vs m : List Nat), m.Perm vs →
    vs.foldl List.erase m = []
  | [], m, h => by simpa using h.eq_nil
  | v :: vs, m, h => by
    have h2 : (m.erase v).Perm vs := by
      have h3 := h.erase v
      simpa [List.erase_cons_head] using h3
    simpa [List.foldl_cons] using foldl_erase_of_perm vs (m.erase v) h2

lemma mapPagesGo_none (f : Nat → Int) (r pg : Nat) : ∀ (rem i : Nat),
    (mapPagesGo f r pg i rem).2 = none →
    (mapPagesGo f r pg i rem).1 = mapSegment r pg i rem
  | 0, i, _ => by simp [mapPagesGo, mapSegment]
  | rem + 1, i, h => by
    by_cases hf : f i < 0
    · simp [mapPagesGo, hf] at h
    · have h2 : (mapPagesGo f r pg (i + 1) rem).2 = none := by
        simpa [mapPagesGo, hf] using h
      simp [mapPagesGo, hf, mapSegment, mapPagesGo_none f r pg rem (i + 1) h2]

lemma mapPagesGo_some (f : Nat → Int) (r pg : Nat) : ∀ (rem i j off : Nat),
    (mapPagesGo f r pg i rem).2 = some (j, off) →
    f j < 0 ∧ off = ((r + j) <<< pg) % U32 ∧
      ∃ k, k < rem + 1 ∧ j = i + k ∧
        (mapPagesGo f r pg i rem).1 = mapSegment r pg i k
  | 0, i, j, off, h => by simp [mapPagesGo] at h
  | rem + 1, i, j, off, h => by
    by_cases hf : f i < 0
    · simp only [mapPagesGo, hf, if_pos, Option.some.injEq, Prod.mk.injEq] at h
      obtain ⟨hj, hoff⟩ := h
      subst hj
      exact ⟨hf, hoff.symm, 0, by omega, by omega, by simp [mapPagesGo, hf, mapSegment]⟩
    · have h2 : (mapPagesGo f r pg (i + 1) rem).2 = some (j, off) := by
        simpa [mapPagesGo, hf] using h
      obtain ⟨hfj, hoff, k, hk, hj, hmap⟩ := mapPagesGo_some f r pg rem (i + 1) j off h2
      refine ⟨hfj, hoff, k + 1, by omega, by omega, ?_⟩
      simp [mapPagesGo, hf, mapSegment, hmap]
/-!
## Branch characterizations of the IOMMU constructor
-/

lemma ctor_iommu_allocfail (pg npages align : Nat) (ok : Nat → Bool)
    (mmRet : Int) (mmOffset : Nat) (mapRet : Nat → Int)
    (h1 : (allocPagesGo ok 0 npages).2 = false) :
    gk20a_instobj_ctor_iommu pg npages align ok mmRet mmOffset mapRet =
      { ret := -12, memOffset := 0, allocated := (allocPagesGo ok 0 npages).1,
        freed := (allocPagesGo ok 0 npages).1, mapped := [], unmapCalls := [],
        reserved := none, regions := [], failedStep := some FailStep.pageAlloc } := by
  simp only [gk20a_instobj_ctor_iommu, h1, if_true]

lemma ctor_iommu_mmfail (pg npages align : Nat) (ok : Nat → Bool)
    (mmRet : Int) (mmOffset : Nat) (mapRet : Nat → Int)
    (h1 : (allocPagesGo ok 0 npages).2 = true) (h2 : mmRet ≠ 0) :
    gk20a_instobj_ctor_iommu pg npages align ok mmRet mmOffset mapRet =
      { ret := mmRet, memOffset := 0, allocated := (allocPagesGo ok 0 npages).1,
        freed := (allocPagesGo ok 0 npages).1, mapped := [], unmapCalls := [],
        reserved := none, regions := [], failedStep := some FailStep.reserve } := by
  simp only [gk20a_instobj_ctor_iommu, h1, h2, Bool.true_eq_false, if_false,
    ite_true, if_neg, reduceIte]
  simp [h2]

lemma ctor_iommu_mapfail (pg npages align : Nat) (ok : Nat → Bool)
    (mmRet : Int) (mmOffset : Nat) (mapRet : Nat → Int) (j off : Nat)
    (h1 : (allocPagesGo ok 0 npages).2 = true) (h2 : mmRet = 0)
    (h3 : (mapPagesGo mapRet (mmOffset % U32) pg 0 npages).2 = some (j, off)) :
    gk20a_instobj_ctor_iommu pg npages align ok mmRet mmOffset mapRet =
      { ret := mapRet j, memOffset := 0,
        allocated := (allocPagesGo ok 0 npages).1,
        freed := (allocPagesGo ok 0 npages).1,
        mapped := (unwindGo j off (mapPagesGo mapRet (mmOffset % U32) pg 0 npages).1 []).1,
        unmapCalls := (unwindGo j off (mapPagesGo mapRet (mmOffset % U32) pg 0 npages).1 []).2,
        reserved := none, regions := [], failedStep := some FailStep.map } := by
  simp only [gk20a_instobj_ctor_iommu, h1, h2, h3, Bool.true_eq_false, if_false,
    ne_eq, not_true_eq_false, reduceIte]

lemma ctor_iommu_success (pg npages align : Nat) (ok : Nat → Bool)
    (mmRet : Int) (mmOffset : Nat) (mapRet : Nat → Int)
    (h1 : (allocPagesGo ok 0 npages).2 = true) (h2 : mmRet = 0)
    (h3 : (mapPagesGo mapRet (mmOffset % U32) pg 0 npages).2 = none) :
    gk20a_instobj_ctor_iommu pg npages align ok mmRet mmOffset mapRet =
      { ret := 0,
        memOffset := ((((mmOffset % U32) ||| (2 ^ (34 - pg))) % U32) <<< pg) % U64,
        allocated := (allocPagesGo ok 0 npages).1, freed := [],
        mapped := (mapPagesGo mapRet (mmOffset % U32) pg 0 npages).1,
        unmapCalls := [],
        reserved := some (mmOffset % U32, npages),
        regions := [((mmOffset % U32) ||| (2 ^ (34 - pg))) % U32],
        failedStep := none } := by
  simp only [gk20a_instobj_ctor_iommu, h1, h2, h3, Bool.true_eq_false, if_false,
    ne_eq, not_true_eq_false, reduceIte]
/-!
## Tag-bit lemmas for the IOMMU offset
-/

lemma untag_bit22 (r : Nat) (hr : r < 2 ^ 22) :
    (((r ||| 2 ^ 22) % U32) &&& (U64 - 1 - 2 ^ 22)) % U32 = r := by
  have hor : r ||| 2 ^ 22 < 2 ^ 23 :=
    Nat.or_lt_two_pow (lt_trans hr (by norm_num)) (by norm_num)
  have hm : (r ||| 2 ^ 22) % U32 = r ||| 2 ^ 22 :=
    Nat.mod_eq_of_lt (lt_of_lt_of_le hor (by norm_num [U32]))
  rw [hm]
  have hmask : U64 - 1 - 2 ^ 22 = (2 ^ 64 - 1) ^^^ 2 ^ 22 := by decide
  have hland : (r ||| 2 ^ 22) &&& (U64 - 1 - 2 ^ 22) = r := by
    apply Nat.eq_of_testBit_eq
    intro j
    rw [Nat.testBit_and, Nat.testBit_or, hmask, Nat.testBit_xor,
      Nat.testBit_two_pow_sub_one]
    by_cases hj : j = 22
    · subst hj
      rw [Nat.testBit_two_pow_self]
      have hb : r.testBit 22 = false := Nat.testBit_lt_two_pow hr
      simp [hb]
    · rw [Nat.testBit_two_pow_of_ne (fun h => hj h.symm)]
      by_cases hj64 : j < 64
      · simp [hj64]
      · have hrj : r.testBit j = false := by
          apply Nat.testBit_lt_two_pow
          calc r < 2 ^ 22 := hr
            _ ≤ 2 ^ j := Nat.pow_le_pow_right (by norm_num) (by omega)
        simp [hj64, hrj]
  rw [hland]
  exact Nat.mod_eq_of_lt (lt_of_lt_of_le hr (by norm_num [U32]))

lemma tagged_testBit34 (r : Nat) (hr : r < 2 ^ 22) :
    (((((r ||| 2 ^ 22) % U32) <<< 12) % U64).testBit 34) = true := by
  have hor : r ||| 2 ^ 22 < 2 ^ 23 :=
    Nat.or_lt_two_pow (lt_trans hr (by norm_num)) (by norm_num)
  have hm : (r ||| 2 ^ 22) % U32 = r ||| 2 ^ 22 :=
    Nat.mod_eq_of_lt (lt_of_lt_of_le hor (by norm_num [U32]))
  rw [hm]
  have hsh : (r ||| 2 ^ 22) <<< 12 < U64 := by
    rw [Nat.shiftLeft_eq]
    calc (r ||| 2 ^ 22) * 2 ^ 12 < 2 ^ 23 * 2 ^ 12 :=
          (Nat.mul_lt_mul_right (by norm_num)).mpr hor
      _ ≤ U64 := by norm_num [U64]
  rw [Nat.mod_eq_of_lt hsh, Nat.testBit_shiftLeft]
  have h34 : (34 : Nat) - 12 = 22 := by norm_num
  rw [h34, Nat.testBit_or]
  have hb : Nat.testBit (2 ^ 22) 22 = true := Nat.testBit_two_pow_self
  rw [hb]
  simp

lemma mapSegment_eq_range (r pg : Nat) : ∀ (k i : Nat),
    mapSegment r pg i k = (List.range k).map (fun t => ((r + (i + t)) <<< pg) % U32) := by
  intro k
  induction k with
  | zero => intro i; simp [mapSegment]
  | succ k ih =>
    intro i
    rw [mapSegment_snoc, ih i, List.range_succ, List.map_append]
    simp

lemma mapSegment_length (r pg : Nat) : ∀ (k i : Nat),
    (mapSegment r pg i k).length = k
  | 0, _ => rfl
  | k + 1, i => by
    simp only [mapSegment, List.length_cons, mapSegment_length r pg k (i + 1)]

lemma allocPagesGo_length (ok : Nat → Bool) : ∀ (rem i : Nat),
    (allocPagesGo ok i rem).2 = true → (allocPagesGo ok i rem).1.length = rem
  | 0, _, _ => rfl
  | rem + 1, i, h => by
    by_cases hk : ok i
    · have h2 : (allocPagesGo ok (i + 1) rem).2 = true := by
        simpa [allocPagesGo, hk] using h
      simp [allocPagesGo, hk, allocPagesGo_length ok rem (i + 1) h2]
    · simp [allocPagesGo, hk] at h

/-!
## The claims
-/

/-- Claim C3: for every object (`node->mem->offset`) and every byte offset,
`write32(o, v)` immediately followed by `read32(o)` returns `v`, the raw
indirect register interface being a store addressed by the register
offsets the code computes. -/
theorem claim_C3 (m o d : Nat) (s : AccessState) (hd : d < U32) :
    (gk20a_instobj_rd32 m (gk20a_instobj_wr32 m s o d) o).1 = d := by
  have ha := (gk20a_wr32_state m s o d).1
  rw [gk20a_rd32_val_hit m _ o ha, gk20a_wr32_regs, Nat.mod_eq_of_lt hd]

theorem claim_C3_witness :
    7 < U32 ∧
    (gk20a_instobj_rd32 0 (gk20a_instobj_wr32 0 ⟨0, fun _ => 0, [], []⟩ 4 7) 4).1 = 7 :=
  ⟨by decide, claim_C3 0 4 7 ⟨0, fun _ => 0, [], []⟩ (by decide)⟩

/-- Claim C4 (amended): `read32`/`write32` compute the window base as
`gpu_offset & 0xffffff00000` — the spec's `gpu_offset & ~(window_size-1)`
further truncated to the hardware's 44-bit window-base field — and the
in-window offset as `gpu_offset & (window_size-1)`; they issue exactly one
repoint register write (`0x001700`, updating the cached value) when the
computed base differs from the cached one and none when it is equal, then
perform exactly one raw 32-bit access at `0x700000 + in_window`. -/
theorem claim_C4 (m : Nat) (s : AccessState) (o d : Nat) :
    (gk20a_instobj_rd32 m s o).2.addr = windowBase m o ∧
    (gk20a_instobj_rd32 m s o).2.writes = s.writes ++
      (if s.addr = windowBase m o then []
       else [(0x001700, (windowBase m o >>> 16) % U32)]) ∧
    (gk20a_instobj_rd32 m s o).2.reads = s.reads ++ [0x700000 + windowOffset m o] ∧
    (gk20a_instobj_wr32 m s o d).addr = windowBase m o ∧
    (gk20a_instobj_wr32 m s o d).writes = s.writes ++
      (if s.addr = windowBase m o then []
       else [(0x001700, (windowBase m o >>> 16) % U32)]) ++
      [(0x700000 + windowOffset m o, d % U32)] ∧
    (gk20a_instobj_wr32 m s o d).reads = s.reads :=
  ⟨(gk20a_rd32_state m s o).1, (gk20a_rd32_state m s o).2.1,
   (gk20a_rd32_state m s o).2.2, (gk20a_wr32_state m s o d).1,
   (gk20a_wr32_state m s o d).2.1, (gk20a_wr32_state m s o d).2.2⟩

/-- Claim C4 counterexample: at `gpu_offset = 2^44` the cached value equals
the spec's `gpu_offset & ~(window_size-1)` (namely `2^44`), yet the code
issues a repoint, because it computes the base with the 44-bit mask
`0xffffff00000` (obtaining 0, not `2^44`). -/
theorem claim_C4_cex :
    (AccessState.mk (2 ^ 44) (fun _ => 0) [] []).addr
        = windowBaseSpec ((2 ^ 44 + 0) % U64) ∧
    windowBase (2 ^ 44) 0 = 0 ∧
    ((gk20a_instobj_rd32 (2 ^ 44) (AccessState.mk (2 ^ 44) (fun _ => 0) [] []) 0).2.writes).length
        = 1 := by
  refine ⟨by decide, by decide, ?_⟩
  decide

/-- Claim C5 (amended): starting from an invalidated cache (the state left
by `gk20a_instmem_fini`), the number of repoint writes issued by any trace
of reads/writes is one for a nonempty trace staying within one 1 MiB
window, plus one more for each crossing of a window boundary — i.e. it
matches the spec's formula with the boundary taken at the 1 MiB PRAMIN
window granularity rather than the 4 KiB page granularity. -/
theorem claim_C5 (m : Nat) (ops : List MemOp) (s : AccessState) :
    repointCount (runOps m (gk20a_instmem_fini s) ops) =
      repointCount s + specRepointCountWindow m ops := by
  have h := runOps_repoints m ops (gk20a_instmem_fini s)
  have hw : repointCount (gk20a_instmem_fini s) = repointCount s := rfl
  have ha : (gk20a_instmem_fini s).addr = U64 - 1 := rfl
  rw [h, hw, ha]
  cases ops with
  | nil => simp [cacheRepoints, specRepointCountWindow]
  | cons op rest =>
    have hne : ¬ (U64 - 1 = windowBase m op.off) := by
      have := windowBase_lt_sentinel m op.off
      omega
    simp only [specRepointCountWindow, List.map, cacheRepoints, if_neg hne,
      cacheRepoints_eq_adjChanges]

/-- Claim C5 counterexample: the trace `[read 0xfff, read 0x1000]` from an
invalidated cache crosses a 4 KiB page boundary but stays inside one 1 MiB
window: the code issues 1 repoint while the claim's per-page formula
predicts 2. -/
theorem claim_C5_cex :
    repointCount (runOps 0 (AccessState.mk (U64 - 1) (fun _ => 0) [] [])
        [MemOp.rd 0xfff, MemOp.rd 0x1000]) = 1 ∧
    specRepointCountPage 0 [MemOp.rd 0xfff, MemOp.rd 0x1000] = 2 ∧
    (pageBaseSpec 0xfff == pageBaseSpec 0x1000) = false ∧
    ((1 : Nat) == 2) = false := by
  refine ⟨by decide, by decide, by decide, by decide⟩

/-- Claim C7: `gk20a_instmem_fini` sets the cached window value to the
sentinel `~0ULL`, the sentinel is strictly greater than every window base
the read/write path can compute, and hence the first access after fini
always issues exactly one repoint. -/
theorem claim_C7 (s : AccessState) (m o d : Nat) :
    (gk20a_instmem_fini s).addr = U64 - 1 ∧
    windowBase m o < U64 - 1 ∧
    repointCount (gk20a_instobj_rd32 m (gk20a_instmem_fini s) o).2
        = repointCount s + 1 ∧
    repointCount (gk20a_instobj_wr32 m (gk20a_instmem_fini s) o d)
        = repointCount s + 1 := by
  have hb := windowBase_lt_sentinel m o
  have hne : ¬ ((gk20a_instmem_fini s).addr = windowBase m o) := by
    have ha : (gk20a_instmem_fini s).addr = U64 - 1 := rfl
    omega
  refine ⟨rfl, hb, ?_, ?_⟩
  · rw [repointCount_rd32, if_neg hne]; rfl
  · rw [repointCount_wr32, if_neg hne]; rfl
/-- Claim C1: in `gk20a_instobj_ctor_iommu` (with the platform page shift,
`iommu_pgshift = PAGE_SHIFT = 12`), failure of any sub-step — page
allocation, `nvkm_mm_head` range reservation, or `iommu_map` — makes the
constructor return a nonzero error with no partial state: every page
allocated before the failure has been freed, no page remains mapped, and
no virtual range remains reserved. -/
theorem claim_C1 (npages align : Nat) (ok : Nat → Bool) (mmRet : Int)
    (mmOffset : Nat) (mapRet : Nat → Int) (st : FailStep)
    (hfail : (gk20a_instobj_ctor_iommu 12 npages align ok mmRet mmOffset mapRet).failedStep
      = some st) :
    (gk20a_instobj_ctor_iommu 12 npages align ok mmRet mmOffset mapRet).ret ≠ 0 ∧
    (gk20a_instobj_ctor_iommu 12 npages align ok mmRet mmOffset mapRet).freed
      = (gk20a_instobj_ctor_iommu 12 npages align ok mmRet mmOffset mapRet).allocated ∧
    (gk20a_instobj_ctor_iommu 12 npages align ok mmRet mmOffset mapRet).mapped = [] ∧
    (gk20a_instobj_ctor_iommu 12 npages align ok mmRet mmOffset mapRet).reserved = none ∧
    (gk20a_instobj_ctor_iommu 12 npages align ok mmRet mmOffset mapRet).regions = [] := by
  by_cases h1 : (allocPagesGo ok 0 npages).2 = false
  · rw [ctor_iommu_allocfail 12 npages align ok mmRet mmOffset mapRet h1]
    exact ⟨by norm_num, rfl, rfl, rfl, rfl⟩
  · have h1t : (allocPagesGo ok 0 npages).2 = true := by
      revert h1; cases (allocPagesGo ok 0 npages).2 <;> simp
    by_cases h2 : mmRet = 0
    · rcases h3 : (mapPagesGo mapRet (mmOffset % U32) 12 0 npages).2 with _ | ⟨j, off⟩
      · rw [ctor_iommu_success 12 npages align ok mmRet mmOffset mapRet h1t h2 h3] at hfail
        simp at hfail
      · obtain ⟨hneg, hoff, k, hk, hjk, hmap⟩ :=
          mapPagesGo_some mapRet (mmOffset % U32) 12 npages 0 j off
            (by cases npages with
                | zero => simp [mapPagesGo] at h3
                | succ n => exact h3)
        rw [ctor_iommu_mapfail 12 npages align ok mmRet mmOffset mapRet j off h1t h2 h3]
        have hj0 : j = k := by omega
        subst hj0
        have hmapped :
            (unwindGo j off (mapPagesGo mapRet (mmOffset % U32) 12 0 npages).1 []).1 = [] := by
          rw [unwindGo_foldl, hmap]
          have hoff2 : off = (((mmOffset % U32) + j) <<< 12) % U32 := hoff
          rw [hoff2, unwindVals_eq_reverse]
          exact foldl_erase_of_perm _ _ (List.reverse_perm _).symm
        refine ⟨?_, rfl, hmapped, rfl, rfl⟩
        show mapRet j ≠ 0
        omega
    · rw [ctor_iommu_mmfail 12 npages align ok mmRet mmOffset mapRet h1t h2]
      exact ⟨h2, rfl, rfl, rfl, rfl⟩
theorem claim_C1_witness :
    (gk20a_instobj_ctor_iommu 12 3 4096 (fun _ => true) 0 5
        (fun i => if i == 1 then -5 else 0)).failedStep = some FailStep.map ∧
    ((gk20a_instobj_ctor_iommu 12 3 4096 (fun _ => true) 0 5
        (fun i => if i == 1 then -5 else 0)).ret ≠ 0 ∧
     (gk20a_instobj_ctor_iommu 12 3 4096 (fun _ => true) 0 5
        (fun i => if i == 1 then -5 else 0)).freed
       = (gk20a_instobj_ctor_iommu 12 3 4096 (fun _ => true) 0 5
           (fun i => if i == 1 then -5 else 0)).allocated ∧
     (gk20a_instobj_ctor_iommu 12 3 4096 (fun _ => true) 0 5
        (fun i => if i == 1 then -5 else 0)).mapped = [] ∧
     (gk20a_instobj_ctor_iommu 12 3 4096 (fun _ => true) 0 5
        (fun i => if i == 1 then -5 else 0)).reserved = none ∧
     (gk20a_instobj_ctor_iommu 12 3 4096 (fun _ => true) 0 5
        (fun i => if i == 1 then -5 else 0)).regions = []) :=
  ⟨by decide, claim_C1 3 4096 (fun _ => true) 0 5
      (fun i => if i == 1 then -5 else 0) FailStep.map (by decide)⟩

/-- Claim C2 counterexample: in the claim's own scenario — `IommuMapped`
backend, 4-page request, mapping failure injected at page index 2 — the
code frees all 4 allocated pages (the `free_pages` loop walks every
non-NULL page), not "exactly 2": the claim's freed-count is wrong. -/
theorem claim_C2_cex :
    ((gk20a_instobj_ctor_iommu 12 4 4096 (fun _ => true) 0 0
        (fun i => if i == 2 then -5 else 0)).freed.length == 2) = false ∧
    (gk20a_instobj_ctor_iommu 12 4 4096 (fun _ => true) 0 0
        (fun i => if i == 2 then -5 else 0)).freed.length = 4 := by
  exact ⟨by decide, by decide⟩

/-- Claim C2 (amended): whenever the page allocations and the range
reservation succeed and the mapping loop fails at 0-based index `j` (the
`j+1`-th, i.e. Nth 1-based, `iommu_map` call), `gk20a_instobj_ctor_iommu`
returns that negative map error having unmapped exactly the `j = N-1`
previously mapped page addresses (and nothing else), freed all `npages`
allocated pages, and released the virtual range — no memory, mapping or
reservation remains outstanding. -/
theorem claim_C2 (npages align : Nat) (ok : Nat → Bool) (mmRet : Int)
    (mmOffset : Nat) (mapRet : Nat → Int) (j off : Nat)
    (h1 : (allocPagesGo ok 0 npages).2 = true)
    (h2 : mmRet = 0)
    (h3 : (mapPagesGo mapRet (mmOffset % U32) 12 0 npages).2 = some (j, off)) :
    (gk20a_instobj_ctor_iommu 12 npages align ok mmRet mmOffset mapRet).ret = mapRet j ∧
    mapRet j < 0 ∧
    (gk20a_instobj_ctor_iommu 12 npages align ok mmRet mmOffset mapRet).unmapCalls
      = (mapSegment (mmOffset % U32) 12 0 j).reverse ∧
    (gk20a_instobj_ctor_iommu 12 npages align ok mmRet mmOffset mapRet).unmapCalls.length
      = j ∧
    (gk20a_instobj_ctor_iommu 12 npages align ok mmRet mmOffset mapRet).allocated.length
      = npages ∧
    (gk20a_instobj_ctor_iommu 12 npages align ok mmRet mmOffset mapRet).freed
      = (gk20a_instobj_ctor_iommu 12 npages align ok mmRet mmOffset mapRet).allocated ∧
    (gk20a_instobj_ctor_iommu 12 npages align ok mmRet mmOffset mapRet).mapped = [] ∧
    (gk20a_instobj_ctor_iommu 12 npages align ok mmRet mmOffset mapRet).reserved = none := by
  obtain ⟨hneg, hoff, k, hk, hjk, hmap⟩ :=
    mapPagesGo_some mapRet (mmOffset % U32) 12 npages 0 j off
      (by cases npages with
          | zero => simp [mapPagesGo] at h3
          | succ n => exact h3)
  have hj0 : j = k := by omega
  subst hj0
  rw [ctor_iommu_mapfail 12 npages align ok mmRet mmOffset mapRet j off h1 h2 h3]
  have hvals : (unwindGo j off (mapPagesGo mapRet (mmOffset % U32) 12 0 npages).1 []).2
      = (mapSegment (mmOffset % U32) 12 0 j).reverse := by
    rw [unwindGo_foldl]
    have hoff2 : off = (((mmOffset % U32) + j) <<< 12) % U32 := hoff
    rw [hoff2, unwindVals_eq_reverse]
    simp
  have hmapped :
      (unwindGo j off (mapPagesGo mapRet (mmOffset % U32) 12 0 npages).1 []).1 = [] := by
    rw [unwindGo_foldl, hmap]
    have hoff2 : off = (((mmOffset % U32) + j) <<< 12) % U32 := hoff
    rw [hoff2, unwindVals_eq_reverse]
    exact foldl_erase_of_perm _ _ (List.reverse_perm _).symm
  refine ⟨rfl, hneg, hvals, ?_, allocPagesGo_length ok npages 0 h1, rfl, hmapped, rfl⟩
  rw [hvals, List.length_reverse, mapSegment_length]

theorem claim_C2_witness :
    (allocPagesGo (fun _ => true) 0 4).2 = true ∧
    (0 : Int) = 0 ∧
    (mapPagesGo (fun i => if i == 2 then -5 else 0) (0 % U32) 12 0 4).2 = some (2, 8192) ∧
    ((gk20a_instobj_ctor_iommu 12 4 4096 (fun _ => true) 0 0
        (fun i => if i == 2 then -5 else 0)).ret = (fun i => if i == 2 then (-5 : Int) else 0) 2 ∧
     (fun i => if i == 2 then (-5 : Int) else 0) 2 < 0 ∧
     (gk20a_instobj_ctor_iommu 12 4 4096 (fun _ => true) 0 0
        (fun i => if i == 2 then -5 else 0)).unmapCalls
       = (mapSegment (0 % U32) 12 0 2).reverse ∧
     (gk20a_instobj_ctor_iommu 12 4 4096 (fun _ => true) 0 0
        (fun i => if i == 2 then -5 else 0)).unmapCalls.length = 2 ∧
     (gk20a_instobj_ctor_iommu 12 4 4096 (fun _ => true) 0 0
        (fun i => if i == 2 then -5 else 0)).allocated.length = 4 ∧
     (gk20a_instobj_ctor_iommu 12 4 4096 (fun _ => true) 0 0
        (fun i => if i == 2 then -5 else 0)).freed
       = (gk20a_instobj_ctor_iommu 12 4 4096 (fun _ => true) 0 0
           (fun i => if i == 2 then -5 else 0)).allocated ∧
     (gk20a_instobj_ctor_iommu 12 4 4096 (fun _ => true) 0 0
        (fun i => if i == 2 then -5 else 0)).mapped = [] ∧
     (gk20a_instobj_ctor_iommu 12 4 4096 (fun _ => true) 0 0
        (fun i => if i == 2 then -5 else 0)).reserved = none) :=
  ⟨by decide, rfl, by decide,
   claim_C2 4 4096 (fun _ => true) 0 0 (fun i => if i == 2 then -5 else 0) 2 8192
     (by decide) rfl (by decide)⟩

/-- Claim C6: `gk20a_instobj_ctor` dispatches to the IOMMU backend exactly
when the IOMMU domain was configured at `gk20a_instmem_ctor` time (and to
the DMA backend otherwise), `gk20a_instobj_dtor` dispatches on the same
`imem->domain` test, and the stored configuration equals the device-time
condition — so the per-allocation choice is a fixed function of the
construction-time state. -/
theorem claim_C6 (deviceDomain : Bool) (devicePgshift : Nat) :
    (gk20a_instmem_ctor deviceDomain devicePgshift).domain = deviceDomain ∧
    gk20a_instobj_ctor_backend (gk20a_instmem_ctor deviceDomain devicePgshift)
      = (if deviceDomain then BackendKind.iommuMapped else BackendKind.contiguousHost) ∧
    gk20a_instobj_dtor_backend (gk20a_instmem_ctor deviceDomain devicePgshift)
      = gk20a_instobj_ctor_backend (gk20a_instmem_ctor deviceDomain devicePgshift) := by
  cases deviceDomain <;>
    exact ⟨rfl, rfl, rfl⟩

/-- Claim C9: the DMA backend returns success with `gpu_offset` equal to
the bus address whenever `dma_alloc_attrs` succeeds — the alignment check
only sets the warning flag, exactly when `handle & (align - 1)` is
nonzero — and returns `-ENOMEM` exactly when the allocator fails. -/
theorem claim_C9 (npages align handle : Nat) :
    (gk20a_instobj_ctor_dma npages align none).ret = -12 ∧
    (gk20a_instobj_ctor_dma npages align none).cpuaddr = none ∧
    (gk20a_instobj_ctor_dma npages align (some handle)).ret = 0 ∧
    (gk20a_instobj_ctor_dma npages align (some handle)).memOffset = handle % U64 ∧
    (gk20a_instobj_ctor_dma npages align (some handle)).warned
      = decide ((handle % U64) &&& ((align + (U32 - 1)) % U32) ≠ 0) :=
  ⟨rfl, rfl, rfl, rfl, rfl⟩

/-- Claim C10: destroying an object whose backend acquisition never
completed is a no-op — the DMA destructor frees nothing when `cpuaddr` is
NULL, and the IOMMU destructor unmaps nothing, frees no page and releases
no range when the region list is empty. -/
theorem claim_C10 (memSize pg ms : Nat) :
    (gk20a_instobj_dtor_dma none memSize).freeCalled = false ∧
    (gk20a_instobj_dtor_dma none memSize).freedBytes = 0 ∧
    (gk20a_instobj_dtor_iommu pg ms []).unmapCalls = [] ∧
    (gk20a_instobj_dtor_iommu pg ms []).freedPages = 0 ∧
    (gk20a_instobj_dtor_iommu pg ms []).released = false :=
  ⟨rfl, rfl, rfl, rfl, rfl⟩
/-- Claim C8: every successful `IommuMapped` allocation (with
`iommu_pgshift = 12` and an in-range reserved offset) returns a
`gpu_offset` with the IOMMU-resolved tag bit 34 set, and
`gk20a_instobj_dtor_iommu` first clears the tag bit and then computes
exactly the same page addresses that were passed to `iommu_map` at
creation — it unmaps all of them, frees all pages and releases the range. -/
theorem claim_C8 (npages align : Nat) (ok : Nat → Bool) (mmRet : Int)
    (mmOffset : Nat) (mapRet : Nat → Int)
    (hr : mmOffset < 2 ^ 22)
    (hsucc : (gk20a_instobj_ctor_iommu 12 npages align ok mmRet mmOffset mapRet).failedStep
      = none) :
    (gk20a_instobj_ctor_iommu 12 npages align ok mmRet mmOffset mapRet).memOffset.testBit 34
      = true ∧
    (gk20a_instobj_dtor_iommu 12 npages
        (gk20a_instobj_ctor_iommu 12 npages align ok mmRet mmOffset mapRet).regions).unmapCalls
      = (gk20a_instobj_ctor_iommu 12 npages align ok mmRet mmOffset mapRet).mapped ∧
    (gk20a_instobj_dtor_iommu 12 npages
        (gk20a_instobj_ctor_iommu 12 npages align ok mmRet mmOffset mapRet).regions).freedPages
      = npages ∧
    (gk20a_instobj_dtor_iommu 12 npages
        (gk20a_instobj_ctor_iommu 12 npages align ok mmRet mmOffset mapRet).regions).released
      = true := by
  have hmo : mmOffset % U32 = mmOffset :=
    Nat.mod_eq_of_lt (lt_of_lt_of_le hr (by norm_num [U32]))
  by_cases h1 : (allocPagesGo ok 0 npages).2 = false
  · rw [ctor_iommu_allocfail 12 npages align ok mmRet mmOffset mapRet h1] at hsucc
    simp at hsucc
  · have h1t : (allocPagesGo ok 0 npages).2 = true := by
      revert h1; cases (allocPagesGo ok 0 npages).2 <;> simp
    by_cases h2 : mmRet = 0
    · rcases h3 : (mapPagesGo mapRet (mmOffset % U32) 12 0 npages).2 with _ | ⟨j, off⟩
      · rw [ctor_iommu_success 12 npages align ok mmRet mmOffset mapRet h1t h2 h3]
        have hmap := mapPagesGo_none mapRet (mmOffset % U32) 12 npages 0 h3
        have h3422 : (34 : Nat) - 12 = 22 := by norm_num
        refine ⟨?_, ?_, ?_, ?_⟩
        · show (((((mmOffset % U32) ||| 2 ^ (34 - 12)) % U32) <<< 12) % U64).testBit 34 = true
          rw [h3422, hmo]
          exact tagged_testBit34 mmOffset hr
        · show (gk20a_instobj_dtor_iommu 12 npages
              [((mmOffset % U32) ||| 2 ^ (34 - 12)) % U32]).unmapCalls
            = (mapPagesGo mapRet (mmOffset % U32) 12 0 npages).1
          rw [hmap, h3422, hmo]
          simp only [gk20a_instobj_dtor_iommu]
          rw [untag_bit22 mmOffset hr, mapSegment_eq_range]
          simp [hmo]
        · rfl
        · rfl
      · rw [ctor_iommu_mapfail 12 npages align ok mmRet mmOffset mapRet j off h1t h2 h3]
          at hsucc
        simp at hsucc
    · rw [ctor_iommu_mmfail 12 npages align ok mmRet mmOffset mapRet h1t h2] at hsucc
      simp at hsucc

theorem claim_C8_witness :
    5 < 2 ^ 22 ∧
    (gk20a_instobj_ctor_iommu 12 2 4096 (fun _ => true) 0 5 (fun _ => 0)).failedStep = none ∧
    ((gk20a_instobj_ctor_iommu 12 2 4096 (fun _ => true) 0 5 (fun _ => 0)).memOffset.testBit 34
       = true ∧
     (gk20a_instobj_dtor_iommu 12 2
         (gk20a_instobj_ctor_iommu 12 2 4096 (fun _ => true) 0 5 (fun _ => 0)).regions).unmapCalls
       = (gk20a_instobj_ctor_iommu 12 2 4096 (fun _ => true) 0 5 (fun _ => 0)).mapped ∧
     (gk20a_instobj_dtor_iommu 12 2
         (gk20a_instobj_ctor_iommu 12 2 4096 (fun _ => true) 0 5 (fun _ => 0)).regions).freedPages
       = 2 ∧
     (gk20a_instobj_dtor_iommu 12 2
         (gk20a_instobj_ctor_iommu 12 2 4096 (fun _ => true) 0 5 (fun _ => 0)).regions).released
       = true) :=
  ⟨by decide, by decide,
   claim_C8 2 4096 (fun _ => true) 0 5 (fun _ => 0) (by decide) (by decide)⟩
